import Mathlib

/-!
# Verification of the celp-mcp metadata introspection and connection-lifecycle layer

This file gives a shallow embedding, in Lean, of the metadata loaders
(`src/connector/schemaManager.ts`), the connector orchestration
(`src/connector/index.ts`), and the Databricks connection manager
(`src/index.ts`), and proves properties of the embedded definitions.

Conventions of the embedding:
* JavaScript objects/maps with string keys become insertion-ordered
  association lists (`List (String × _)`); `Map.set` on an existing key
  updates in place, on a new key appends — mirrored by `fmSet`.
* Database queries are modelled by their results, passed in as explicit
  inputs; a query that can reject is passed as an `Except` value.
* JavaScript numbers are modelled by `ℚ` (document values) or `Nat`/`Int`
  (row counts, timestamps); the floating-point results relevant to the
  theorems below (`5 / 100 * 100`) are exact in binary floating point,
  so the `ℚ` model agrees with the JS semantics at every value used.
-/

set_option maxHeartbeats 1600000
set_option maxRecDepth 20000

namespace CelpMcp

/-! ## JavaScript values (sampled documents of the document backend) -/

/-- A JavaScript value as seen by the Mongo schema inferencer:
`null`, `undefined`, primitives, arrays and plain objects
(objects keep their property insertion order). -/
inductive JsVal where
  | null
  | undef
  | bool (b : Bool)
  | num (q : ℚ)
  | str (s : String)
  | arr (elems : List JsVal)
  | obj (fields : List (String × JsVal))

/-- JavaScript `typeof` (note `typeof null === "object"` and arrays are
`"object"` as well). -/
def jsTypeof : JsVal → String
  | .undef => "undefined"
  | .bool _ => "boolean"
  | .num _ => "number"
  | .str _ => "string"
  | .null => "object"
  | .arr _ => "object"
  | .obj _ => "object"

/-- `v === null`. -/
def jsIsNull : JsVal → Bool
  | .null => true
  | _ => false

mutual

/-- Structural value equality; on the primitives that the code actually
compares (via `Array.prototype.includes`, i.e. SameValueZero) this agrees
with JavaScript. -/
def jsEq : JsVal → JsVal → Bool
  | .null, .null => true
  | .undef, .undef => true
  | .bool a, .bool b => a == b
  | .num a, .num b => a == b
  | .str a, .str b => a == b
  | .arr a, .arr b => jsEqList a b
  | .obj a, .obj b => jsEqFields a b
  | _, _ => false

def jsEqList : List JsVal → List JsVal → Bool
  | [], [] => true
  | a :: as, b :: bs => jsEq a b && jsEqList as bs
  | _, _ => false

def jsEqFields : List (String × JsVal) → List (String × JsVal) → Bool
  | [], [] => true
  | (k, a) :: as, (l, b) :: bs => k == l && jsEq a b && jsEqFields as bs
  | _, _ => false

end

/-- `sampleValues.includes(value)` (SameValueZero membership). -/
def jsIncludes (l : List JsVal) (v : JsVal) : Bool :=
  l.any (fun x => jsEq x v)

/-- No value of the list occurs twice (under `jsEq`). -/
def jsNodup : List JsVal → Bool
  | [] => true
  | x :: rest => !(rest.any (fun y => jsEq x y)) && jsNodup rest

/-! ## `inferFieldsFromDocuments` / `analyzeDocumentFields` (schemaManager.ts) -/

/-- The per-field-path record accumulated by `analyzeDocumentFields`. -/
structure FieldInfo where
  name : String
  types : List String
  isArray : Bool
  isNested : Bool
  nullCount : Nat
  totalCount : Nat
  sampleValues : List JsVal

/-- The `fieldMap : Map<string, FieldInfo>`, insertion ordered. -/
abbrev FieldMap := List (String × FieldInfo)

def fmFind : FieldMap → String → Option FieldInfo
  | [], _ => none
  | (k, v) :: rest, key => if k = key then some v else fmFind rest key

/-- `Map.set`: update in place if present, append otherwise. -/
def fmSet : FieldMap → String → FieldInfo → FieldMap
  | [], key, v => [(key, v)]
  | (k, w) :: rest, key, v =>
      if k = key then (k, v) :: rest else (k, w) :: fmSet rest key v

/-- `Set.add` on the insertion-ordered type set. -/
def addType (types : List String) (t : String) : List String :=
  if types.contains t then types else types ++ [t]

/-- The record created when a path is first seen. -/
def newFieldInfo (path : String) : FieldInfo :=
  { name := path, types := [], isArray := false, isNested := false,
    nullCount := 0, totalCount := 0, sampleValues := [] }

/-- `prefix ? prefix + "." + key : key`. -/
def fieldPathOf (pfx key : String) : String :=
  if pfx = "" then key else pfx ++ "." ++ key

/-- `typeof item === "object" && item !== null`. -/
def isObjNonNull (v : JsVal) : Bool :=
  jsTypeof v == "object" && !(jsIsNull v)

/-- Append a sample value with no cap and no dedup check (the pushes done
for array values and nested objects). -/
def pushSampleValue (fm : FieldMap) (path : String) (v : JsVal) : FieldMap :=
  match fmFind fm path with
  | some fi => fmSet fm path { fi with sampleValues := fi.sampleValues ++ [v] }
  | none => fm

/-- `if (!fieldMap.has(fieldPath)) fieldMap.set(fieldPath, {...defaults})`. -/
def ensureEntry (fm : FieldMap) (path : String) : FieldMap :=
  if (fmFind fm path).isSome then fm else fmSet fm path (newFieldInfo path)

/-- The guarded sample push of the scalar branch:
`if (sampleValues.length < 10 && !sampleValues.includes(value)) push(value)`. -/
def pushScalarSample (fi : FieldInfo) (v : JsVal) : FieldInfo :=
  if fi.sampleValues.length < 10 && !(jsIncludes fi.sampleValues v) then
    { fi with sampleValues := fi.sampleValues ++ [v] }
  else fi

mutual

/-- `analyzeDocumentFields(obj, fieldMap, prefix)`: iterate
`Object.entries(obj)` (for an array, the index-keyed entries). -/
def analyzeDocumentFields : JsVal → FieldMap → String → FieldMap
  | .obj fs, fm, pfx => analyzeEntries fs fm pfx
  | .arr xs, fm, pfx => analyzeIndexedEntries xs 0 fm pfx
  | _, fm, _ => fm
termination_by structural v _ _ => v

def analyzeEntries : List (String × JsVal) → FieldMap → String → FieldMap
  | [], fm, _ => fm
  | (key, value) :: rest, fm, pfx =>
      analyzeEntries rest (analyzeOneEntry key value fm pfx) pfx
termination_by structural l _ _ => l

def analyzeIndexedEntries : List JsVal → Nat → FieldMap → String → FieldMap
  | [], _, fm, _ => fm
  | v :: rest, i, fm, pfx =>
      analyzeIndexedEntries rest (i + 1) (analyzeOneEntry (toString i) v fm pfx) pfx
termination_by structural l _ _ _ => l

/-- The body of the `for (const [key, value] of Object.entries(obj))` loop. -/
def analyzeOneEntry (key : String) (value : JsVal) (fm : FieldMap) (pfx : String) :
    FieldMap :=
  let fieldPath := fieldPathOf pfx key
  let fm1 := ensureEntry fm fieldPath
  let fi0 := (fmFind fm1 fieldPath).getD (newFieldInfo fieldPath)
  let fi1 := { fi0 with totalCount := fi0.totalCount + 1 }
  match value with
  | .null =>
      fmSet fm1 fieldPath
        { fi1 with nullCount := fi1.nullCount + 1, types := addType fi1.types "null" }
  | .undef =>
      fmSet fm1 fieldPath
        { fi1 with nullCount := fi1.nullCount + 1, types := addType fi1.types "null" }
  | .arr xs =>
      let fi2 := { fi1 with isArray := true, types := addType fi1.types "array" }
      match xs with
      | [] =>
          pushSampleValue (fmSet fm1 fieldPath fi2) fieldPath (.arr [])
      | x0 :: restx =>
          let fi3 := { fi2 with
            types := addType fi2.types ("array<" ++ jsTypeof x0 ++ ">") }
          let elemObj := isObjNonNull x0
          let fi4 := if elemObj then { fi3 with isNested := true } else fi3
          let fm2 := fmSet fm1 fieldPath fi4
          let fm3 :=
            if elemObj then
              let fmA := if isObjNonNull x0 then
                analyzeDocumentFields x0 fm2 (fieldPath ++ "[0]") else fm2
              match restx with
              | [] => fmA
              | [b] =>
                  if isObjNonNull b then
                    analyzeDocumentFields b fmA (fieldPath ++ "[1]") else fmA
              | b :: c :: _ =>
                  let fmB := if isObjNonNull b then
                    analyzeDocumentFields b fmA (fieldPath ++ "[1]") else fmA
                  if isObjNonNull c then
                    analyzeDocumentFields c fmB (fieldPath ++ "[2]") else fmB
            else fm2
          pushSampleValue fm3 fieldPath (.arr ((x0 :: restx).take 3))
  | .obj gs =>
      let fi2 := { fi1 with isNested := true, types := addType fi1.types "object" }
      let fm2 := fmSet fm1 fieldPath fi2
      let fm3 := analyzeEntries gs fm2 fieldPath
      pushSampleValue fm3 fieldPath (.str "[nested object]")
  | v =>
      let t := jsTypeof v
      let fi2 := { fi1 with types := addType fi1.types t }
      fmSet fm1 fieldPath (pushScalarSample fi2 v)
termination_by structural value

end

/-- The fixed priority order for mixed types. -/
def typePriority : List String := ["string", "number", "boolean", "object", "array", "null"]

/-- `getMostCommonType(types)`. -/
def getMostCommonType (types : List String) : String :=
  match types with
  | [t] => t
  | _ =>
    match typePriority.find? (fun t => types.contains t) with
    | some t => t
    | none =>
      match types with
      | [] => "unknown"
      | t :: _ => if t = "" then "unknown" else t

/-- The emitted column descriptor for the document backend. -/
structure MongoField where
  columnName : String
  dataType : String
  isNullable : String
  nullPercentage : ℚ
  isArray : Bool
  isNested : Bool
  allTypes : List String
  sampleValues : List JsVal
  occurrenceCount : Nat

/-- The `fields.push({...})` body of `inferFieldsFromDocuments`. -/
def mkMongoField (fieldPath : String) (fi : FieldInfo) : MongoField :=
  { columnName := fieldPath
    dataType := getMostCommonType fi.types
    isNullable := if fi.nullCount > 0 then "YES" else "NO"
    nullPercentage := ((fi.nullCount : ℚ) / (fi.totalCount : ℚ)) * 100
    isArray := fi.isArray
    isNested := fi.isNested
    allTypes := fi.types
    sampleValues := fi.sampleValues.take 5
    occurrenceCount := fi.totalCount - fi.nullCount }

/-- `docs.forEach(doc => analyzeDocumentFields(doc, fieldMap, ''))`. -/
def buildFieldMap (docs : List JsVal) : FieldMap :=
  docs.foldl (fun fm doc => analyzeDocumentFields doc fm "") []

/-- Lexicographic comparison of character lists by code point — the model
of the ascending order induced by `a.localeCompare(b)`. -/
def charListLe : List Char → List Char → Bool
  | [], _ => true
  | _ :: _, [] => false
  | a :: as, b :: bs =>
      if a.toNat = b.toNat then charListLe as bs else decide (a.toNat < b.toNat)

/-- String comparison used by the `fields.sort` comparator. -/
def strLe (a b : String) : Bool := charListLe a.data b.data

/-- One step of the sort of `fields.sort((a, b) => a.columnName.localeCompare(b.columnName))`. -/
def sortFieldsInsert (f : MongoField) : List MongoField → List MongoField
  | [] => [f]
  | g :: rest =>
      if strLe f.columnName g.columnName then f :: g :: rest
      else g :: sortFieldsInsert f rest

/-- The sort of the emitted field list by `columnName`. -/
def sortFields : List MongoField → List MongoField
  | [] => []
  | f :: rest => sortFieldsInsert f (sortFields rest)

/-- `inferFieldsFromDocuments(docs)`: build the field map, emit one
descriptor per path, sort by `columnName` (the
`(a, b) => a.columnName.localeCompare(b.columnName)` comparator). -/
def inferFieldsFromDocuments (docs : List JsVal) : List MongoField :=
  let fm := buildFieldMap docs
  let fields := fm.map (fun kv => mkMongoField kv.1 kv.2)
  sortFields fields


/-! ## Helper lemmas: the sort comparator and sample dedup -/

theorem charListLe_total : ∀ a b, charListLe a b = true ∨ charListLe b a = true := by
  intro a
  induction a with
  | nil => intro b; left; rfl
  | cons x xs ih =>
    intro b
    cases b with
    | nil => right; rfl
    | cons y ys =>
      by_cases h : x.toNat = y.toNat
      · have h' : y.toNat = x.toNat := h.symm
        have e1 : charListLe (x :: xs) (y :: ys) = charListLe xs ys := by
          rw [charListLe, if_pos h]
        have e2 : charListLe (y :: ys) (x :: xs) = charListLe ys xs := by
          rw [charListLe, if_pos h']
        rw [e1, e2]; exact ih ys
      · have h' : ¬ y.toNat = x.toNat := fun e => h e.symm
        have e1 : charListLe (x :: xs) (y :: ys) = decide (x.toNat < y.toNat) := by
          rw [charListLe, if_neg h]
        have e2 : charListLe (y :: ys) (x :: xs) = decide (y.toNat < x.toNat) := by
          rw [charListLe, if_neg h']
        rw [e1, e2, decide_eq_true_eq, decide_eq_true_eq]
        omega

theorem charListLe_trans :
    ∀ a b c, charListLe a b = true → charListLe b c = true → charListLe a c = true := by
  intro a
  induction a with
  | nil => intro b c _ _; rfl
  | cons x xs ih =>
    intro b c hab hbc
    cases b with
    | nil => simp [charListLe] at hab
    | cons y ys =>
      cases c with
      | nil => simp [charListLe] at hbc
      | cons z zs =>
        by_cases h1 : x.toNat = y.toNat <;> by_cases h2 : y.toNat = z.toNat
        · have h3 : x.toNat = z.toNat := h1.trans h2
          rw [charListLe, if_pos h1] at hab
          rw [charListLe, if_pos h2] at hbc
          rw [charListLe, if_pos h3]
          exact ih ys zs hab hbc
        · rw [charListLe, if_neg h2, decide_eq_true_eq] at hbc
          have h3 : ¬ x.toNat = z.toNat := by omega
          rw [charListLe, if_neg h3, decide_eq_true_eq]
          omega
        · rw [charListLe, if_neg h1, decide_eq_true_eq] at hab
          have h3 : ¬ x.toNat = z.toNat := by omega
          rw [charListLe, if_neg h3, decide_eq_true_eq]
          omega
        · rw [charListLe, if_neg h1, decide_eq_true_eq] at hab
          rw [charListLe, if_neg h2, decide_eq_true_eq] at hbc
          have h3 : ¬ x.toNat = z.toNat := by omega
          rw [charListLe, if_neg h3, decide_eq_true_eq]
          omega

theorem strLe_total (a b : String) : strLe a b = true ∨ strLe b a = true :=
  charListLe_total a.data b.data

theorem strLe_trans {a b c : String} (h1 : strLe a b = true) (h2 : strLe b c = true) :
    strLe a c = true :=
  charListLe_trans a.data b.data c.data h1 h2

/-- The order the emitted field list is sorted in. -/
def fieldOrd (a b : MongoField) : Prop := strLe a.columnName b.columnName = true

theorem mem_sortFieldsInsert {x f : MongoField} :
    ∀ {l}, x ∈ sortFieldsInsert f l → x = f ∨ x ∈ l := by
  intro l
  induction l with
  | nil => intro h; simp [sortFieldsInsert] at h; exact Or.inl h
  | cons g rest ih =>
    intro h
    rw [sortFieldsInsert] at h
    by_cases hc : strLe f.columnName g.columnName = true
    · rw [if_pos hc] at h
      rcases List.mem_cons.mp h with h | h
      · exact Or.inl h
      · exact Or.inr h
    · rw [if_neg hc] at h
      rcases List.mem_cons.mp h with h | h
      · subst h; exact Or.inr (List.mem_cons_self _ _)
      · rcases ih h with h | h
        · exact Or.inl h
        · exact Or.inr (List.mem_cons_of_mem _ h)

theorem sorted_sortFieldsInsert {f : MongoField} :
    ∀ {l}, List.Sorted fieldOrd l → List.Sorted fieldOrd (sortFieldsInsert f l) := by
  intro l
  induction l with
  | nil => intro _; simp [sortFieldsInsert, fieldOrd]
  | cons g rest ih =>
    intro hs
    rw [List.sorted_cons] at hs
    obtain ⟨hg, hrest⟩ := hs
    rw [sortFieldsInsert]
    by_cases hc : strLe f.columnName g.columnName = true
    · rw [if_pos hc]
      rw [List.sorted_cons]
      refine ⟨?_, ?_⟩
      · intro b hb
        rcases List.mem_cons.mp hb with rfl | hb
        · exact hc
        · exact strLe_trans hc (hg b hb)
      · rw [List.sorted_cons]; exact ⟨hg, hrest⟩
    · rw [if_neg hc]
      rw [List.sorted_cons]
      refine ⟨?_, ih hrest⟩
      intro b hb
      rcases mem_sortFieldsInsert hb with rfl | hb
      · rcases strLe_total b.columnName g.columnName with h | h
        · exact absurd h hc
        · exact h
      · exact hg b hb

theorem sorted_sortFields : ∀ l, List.Sorted fieldOrd (sortFields l) := by
  intro l
  induction l with
  | nil => simp [sortFields]
  | cons f rest ih => exact sorted_sortFieldsInsert ih


/-! ## Sample cap/dedup invariant (claim C4) -/

theorem fmFind_fmSet (fm : FieldMap) (p : String) (fi : FieldInfo) (q : String) :
    fmFind (fmSet fm p fi) q = if p = q then some fi else fmFind fm q := by
  induction fm with
  | nil =>
    by_cases h : p = q <;> simp [fmSet, fmFind, h]
  | cons kv rest ih =>
    obtain ⟨k, w⟩ := kv
    by_cases hk : k = p
    · subst hk
      rw [fmSet, if_pos rfl]
      by_cases h : k = q
      · subst h; simp [fmFind]
      · simp [fmFind, h]
    · rw [fmSet, if_neg hk]
      by_cases h : k = q
      · subst h
        have hp : ¬ p = k := fun e => hk e.symm
        simp [fmFind, hp]
      · simp [fmFind, h, ih]

theorem jsNodup_append {l : List JsVal} {v : JsVal}
    (h1 : jsNodup l = true) (h2 : jsIncludes l v = false) :
    jsNodup (l ++ [v]) = true := by
  induction l with
  | nil => rfl
  | cons x rest ih =>
    rw [jsNodup, Bool.and_eq_true, Bool.not_eq_true'] at h1
    obtain ⟨hx, hrest⟩ := h1
    rw [jsIncludes, List.any_cons, Bool.or_eq_false_iff] at h2
    obtain ⟨hxv, hrestv⟩ := h2
    rw [List.cons_append, jsNodup, Bool.and_eq_true, Bool.not_eq_true']
    constructor
    · rw [List.any_append, hx, List.any_cons, List.any_nil, hxv]
      rfl
    · exact ih hrest hrestv

/-- Values handled by the scalar branch or by the null branch of
`analyzeDocumentFields` (neither performs an unconditional sample push). -/
def isScalarish : JsVal → Bool
  | .bool _ => true
  | .num _ => true
  | .str _ => true
  | .null => true
  | .undef => true
  | _ => false

/-- A sampled document that is an object whose top-level values are all
scalar or null. -/
def flatDoc : JsVal → Bool
  | .obj fs => fs.all (fun kv => isScalarish kv.2)
  | _ => false

/-- Every record of the field map keeps at most 10 sample values, with no
duplicate among them. -/
def SamplesOk (fm : FieldMap) : Prop :=
  ∀ p fi, fmFind fm p = some fi →
    fi.sampleValues.length ≤ 10 ∧ jsNodup fi.sampleValues = true

theorem samplesOk_nil : SamplesOk [] := by
  intro p fi h
  exact Option.noConfusion h

theorem samplesOk_fmSet {fm : FieldMap} {p : String} {fi : FieldInfo} (h : SamplesOk fm)
    (h1 : fi.sampleValues.length ≤ 10) (h2 : jsNodup fi.sampleValues = true) :
    SamplesOk (fmSet fm p fi) := by
  intro q fj hq
  rw [fmFind_fmSet] at hq
  by_cases hpq : p = q
  · rw [if_pos hpq] at hq
    cases hq
    exact ⟨h1, h2⟩
  · rw [if_neg hpq] at hq
    exact h q fj hq

theorem samplesOk_ensureEntry {fm : FieldMap} (h : SamplesOk fm) (path : String) :
    SamplesOk (ensureEntry fm path) := by
  rw [ensureEntry]
  split
  · exact h
  · exact samplesOk_fmSet h (by simp [newFieldInfo]) (by simp [newFieldInfo, jsNodup])

theorem samplesOk_fi0 {fm : FieldMap} (h : SamplesOk fm) (path : String) :
    ((fmFind fm path).getD (newFieldInfo path)).sampleValues.length ≤ 10 ∧
      jsNodup ((fmFind fm path).getD (newFieldInfo path)).sampleValues = true := by
  cases hf : fmFind fm path with
  | none => exact ⟨by simp [newFieldInfo], by simp [newFieldInfo, jsNodup]⟩
  | some fi => simpa [hf] using h path fi hf

theorem pushScalarSample_ok {fi fj : FieldInfo} {v : JsVal}
    (hs : fj.sampleValues = fi.sampleValues)
    (h1 : fi.sampleValues.length ≤ 10) (h2 : jsNodup fi.sampleValues = true) :
    (pushScalarSample fj v).sampleValues.length ≤ 10 ∧
      jsNodup (pushScalarSample fj v).sampleValues = true := by
  rw [← hs] at h1 h2
  rw [pushScalarSample]
  split
  · next hguard =>
    rw [Bool.and_eq_true, decide_eq_true_eq, Bool.not_eq_true'] at hguard
    constructor
    · simp only [List.length_append, List.length_cons, List.length_nil]
      omega
    · exact jsNodup_append h2 hguard.2
  · exact ⟨h1, h2⟩

theorem scalarCaseAux {fm : FieldMap} (path : String)
    (hens : SamplesOk (ensureEntry fm path))
    (h1 : ((fmFind (ensureEntry fm path) path).getD (newFieldInfo path)).sampleValues.length ≤ 10)
    (h2 : jsNodup ((fmFind (ensureEntry fm path) path).getD (newFieldInfo path)).sampleValues = true)
    (fj : FieldInfo)
    (hfj : fj.sampleValues =
      ((fmFind (ensureEntry fm path) path).getD (newFieldInfo path)).sampleValues)
    (v : JsVal) :
    SamplesOk (fmSet (ensureEntry fm path) path (pushScalarSample fj v)) :=
  samplesOk_fmSet hens (pushScalarSample_ok hfj h1 h2).1 (pushScalarSample_ok hfj h1 h2).2

theorem analyzeOneEntry_samplesOk {value : JsVal} (hv : isScalarish value = true)
    {fm : FieldMap} (h : SamplesOk fm) (key pfx : String) :
    SamplesOk (analyzeOneEntry key value fm pfx) := by
  have hens := samplesOk_ensureEntry h (fieldPathOf pfx key)
  have hfi0 := samplesOk_fi0 hens (fieldPathOf pfx key)
  cases value with
  | arr xs => exact absurd hv (by simp [isScalarish])
  | obj gs => exact absurd hv (by simp [isScalarish])
  | null =>
    exact samplesOk_fmSet hens hfi0.1 hfi0.2
  | undef =>
    exact samplesOk_fmSet hens hfi0.1 hfi0.2
  | bool b =>
    refine scalarCaseAux _ hens hfi0.1 hfi0.2 _ ?_ _
    rfl
  | num q =>
    refine scalarCaseAux _ hens hfi0.1 hfi0.2 _ ?_ _
    rfl
  | str s =>
    refine scalarCaseAux _ hens hfi0.1 hfi0.2 _ ?_ _
    rfl

theorem analyzeEntries_samplesOk :
    ∀ (fs : List (String × JsVal)) {fm : FieldMap}, SamplesOk fm →
      ∀ pfx, fs.all (fun kv => isScalarish kv.2) = true →
        SamplesOk (analyzeEntries fs fm pfx) := by
  intro fs
  induction fs with
  | nil => intro fm h pfx _; exact h
  | cons kv rest ih =>
    intro fm h pfx hall
    obtain ⟨k, v⟩ := kv
    rw [List.all_cons, Bool.and_eq_true] at hall
    rw [analyzeEntries]
    exact ih (analyzeOneEntry_samplesOk hall.1 h k pfx) pfx hall.2

theorem foldDocs_samplesOk :
    ∀ (docs : List JsVal) (fm : FieldMap), SamplesOk fm → docs.all flatDoc = true →
      SamplesOk (docs.foldl (fun fm doc => analyzeDocumentFields doc fm "") fm) := by
  intro docs
  induction docs with
  | nil => intro fm h _; exact h
  | cons d rest ih =>
    intro fm h hall
    rw [List.all_cons, Bool.and_eq_true] at hall
    rw [List.foldl_cons]
    refine ih _ ?_ hall.2
    cases d with
    | obj fs =>
      rw [analyzeDocumentFields]
      exact analyzeEntries_samplesOk fs h "" (by simpa [flatDoc] using hall.1)
    | null => exact absurd hall.1 (by simp [flatDoc])
    | undef => exact absurd hall.1 (by simp [flatDoc])
    | bool b => exact absurd hall.1 (by simp [flatDoc])
    | num q => exact absurd hall.1 (by simp [flatDoc])
    | str t => exact absurd hall.1 (by simp [flatDoc])
    | arr xs => exact absurd hall.1 (by simp [flatDoc])

theorem buildFieldMap_samplesOk (docs : List JsVal) (h : docs.all flatDoc = true) :
    SamplesOk (buildFieldMap docs) :=
  foldDocs_samplesOk docs [] samplesOk_nil h

/-! ## Claim C4 -/

/-- Two sampled documents, each with the same nested object under `a`. -/
def c4docs : List JsVal :=
  [.obj [("a", .obj [("b", .num 1)])], .obj [("a", .obj [("b", .num 1)])]]

/-- **C4, counterexample.** The claim states that every per-path record
holds at most 10 *deduplicated* sample values regardless of whether the
observed values are scalars, arrays, or nested objects. On two documents
each holding a nested object under `a`, the record for `a` holds two
(identical) sample placeholders — the nested-object push is unconditional,
so the samples are not deduplicated. -/
theorem mongo_samples_nested_object_duplicated :
    (fmFind (buildFieldMap c4docs) "a").map
      (fun fi => (fi.sampleValues.length, jsNodup fi.sampleValues)) = some (2, false) := by
  decide

/-- **C4, amended.** The 10-value cap and the deduplication hold for the
guarded scalar push: over documents whose observed values are all scalar
or null, every per-path record holds at most 10 pairwise-distinct sample
values. (Array and nested-object observations append one sample entry per
occurrence with neither cap nor dedup check.) -/
theorem mongo_scalar_samples_capped_and_deduped (docs : List JsVal)
    (h : docs.all flatDoc = true) :
    ∀ p fi, fmFind (buildFieldMap docs) p = some fi →
      fi.sampleValues.length ≤ 10 ∧ jsNodup fi.sampleValues = true :=
  fun p fi hf => buildFieldMap_samplesOk docs h p fi hf

/-- Twelve sampled documents with twelve distinct scalar values under `a`. -/
def c4wdocs : List JsVal :=
  [.obj [("a", .str "s01")], .obj [("a", .str "s02")], .obj [("a", .str "s03")],
   .obj [("a", .str "s04")], .obj [("a", .str "s05")], .obj [("a", .str "s06")],
   .obj [("a", .str "s07")], .obj [("a", .str "s08")], .obj [("a", .str "s09")],
   .obj [("a", .str "s10")], .obj [("a", .str "s11")], .obj [("a", .str "s12")]]

/-- Witness for `mongo_scalar_samples_capped_and_deduped` at twelve flat
documents. -/
theorem mongo_scalar_samples_capped_and_deduped_witness :
    c4wdocs.all flatDoc = true ∧
      Option.all (fun fi => decide (fi.sampleValues.length ≤ 10) && jsNodup fi.sampleValues)
        (fmFind (buildFieldMap c4wdocs) "a") = true := by
  refine ⟨by decide, ?_⟩
  have h := mongo_scalar_samples_capped_and_deduped c4wdocs (by decide)
  cases hf : fmFind (buildFieldMap c4wdocs) "a" with
  | none => rfl
  | some fi =>
    have hp := h "a" fi hf
    simp [Option.all, hp.1, hp.2]

/-! ## Claim C5 -/

/-- 100 sampled documents: `amount` is the number 1 in 95 of them and
null in the remaining 5. -/
def c5docs : List JsVal :=
  List.replicate 95 (.obj [("amount", .num 1)]) ++
    List.replicate 5 (.obj [("amount", .null)])

/-- **C5 (confirmed).** On the 100-document sample (95 numbers, 5 nulls)
the inferencer emits exactly one descriptor, for `amount`, with
`isNullable = "YES"`, dominant type `"number"`, and `nullPercentage = 5`;
and in general the emitted descriptor is marked nullable iff the
record's null count is positive. -/
theorem mongo_nullable_scenario_and_nullable_iff :
    ((inferFieldsFromDocuments c5docs).map (fun f => (f.columnName, f.isNullable, f.dataType)) =
        [("amount", "YES", "number")] ∧
      ∀ f ∈ inferFieldsFromDocuments c5docs, f.nullPercentage = 5) ∧
    (∀ path fi, (mkMongoField path fi).isNullable = "YES" ↔ 0 < fi.nullCount) := by
  constructor
  · have hproj : (buildFieldMap c5docs).map
        (fun kv => (kv.1, kv.2.nullCount, kv.2.totalCount, kv.2.types)) =
        [("amount", 5, 100, ["number", "null"])] := by decide
    cases hB : buildFieldMap c5docs with
    | nil => rw [hB] at hproj; simp at hproj
    | cons hd tl =>
      cases tl with
      | cons hd2 tl2 => rw [hB] at hproj; simp at hproj
      | nil =>
        rw [hB] at hproj
        simp only [List.map_cons, List.map_nil, List.cons.injEq, and_true,
          Prod.mk.injEq] at hproj
        obtain ⟨hn, hnc, htc, hty⟩ := hproj
        have hinf : inferFieldsFromDocuments c5docs = [mkMongoField hd.1 hd.2] := by
          simp only [inferFieldsFromDocuments]
          rw [hB]
          rfl
        rw [hinf]
        constructor
        · simp only [List.map_cons, List.map_nil, mkMongoField, hn, hnc, hty]
          decide
        · intro f hf
          rw [List.mem_singleton] at hf
          subst hf
          simp only [mkMongoField, hnc, htc]
          norm_num
  · intro path fi
    by_cases h : 0 < fi.nullCount
    · simp [mkMongoField, h]
    · simp [mkMongoField, h]

/-- Witness for the nullable-iff component of
`mongo_nullable_scenario_and_nullable_iff` at a concrete record with
null count 5. -/
theorem mongo_nullable_scenario_and_nullable_iff_witness :
    (mkMongoField "amount"
      { name := "amount", types := ["number", "null"], isArray := false,
        isNested := false, nullCount := 5, totalCount := 100,
        sampleValues := [] }).isNullable = "YES" :=
  (mongo_nullable_scenario_and_nullable_iff.2 "amount" _).mpr (by decide)

/-! ## Claim C6 -/

/-- **C6 (confirmed).** The inferencer is a pure function of the sampled
documents (so identical samples give identical output); its output is
sorted by the `columnName` comparator; when several types were observed
the dominant type is the first entry of the fixed priority list
`[string, number, boolean, object, array, null]` present in the observed
set; in particular an observed set `{number, string}` resolves to
`string`. -/
theorem inferFields_sorted_and_priority_tiebreak :
    (∀ docs, List.Sorted fieldOrd (inferFieldsFromDocuments docs)) ∧
    (∀ ts p, 2 ≤ ts.length →
        typePriority.find? (fun t => ts.contains t) = some p →
        getMostCommonType ts = p) ∧
    getMostCommonType ["number", "string"] = "string" := by
  refine ⟨?_, ?_, by decide⟩
  · intro docs
    simp only [inferFieldsFromDocuments]
    exact sorted_sortFields _
  · intro ts p hlen hfind
    cases ts with
    | nil => simp at hlen
    | cons t rest =>
      cases rest with
      | nil => simp at hlen
      | cons u rest2 =>
        simp only [getMostCommonType, hfind]

/-- Witness for `inferFields_sorted_and_priority_tiebreak` at the
two-element observed type set `{number, string}`. -/
theorem inferFields_sorted_and_priority_tiebreak_witness :
    getMostCommonType ["number", "string"] = "string" :=
  inferFields_sorted_and_priority_tiebreak.2.1 ["number", "string"] "string"
    (by decide) (by decide)


/-! ## Schema manager module state (schemaManager.ts)

The module keeps three mutable module-level maps (`schemaMap`, `indexMap`,
`tableSizeCache`).  `connector/index.ts` destructures the three map objects
once at import time (`const { ..., schemaMap, indexMap, tableSizeCache } =
schemaUtils`); a loader that *reassigns* one of the module bindings makes
the connector's captured reference stale.  The three `*Captured` flags
record whether the current map object is still the one the connector
captured: in-place mutation keeps the flag, reassignment clears it.
`initMetadata`'s reset loop deletes the keys of the captured objects, so
it empties the live map only while the flag is set. -/

def alFind {α : Type} : List (String × α) → String → Option α
  | [], _ => none
  | (k, v) :: rest, key => if k = key then some v else alFind rest key

/-- `m[k] = v` on a JavaScript object: overwrite in place or append. -/
def alSet {α : Type} : List (String × α) → String → α → List (String × α)
  | [], key, v => [(key, v)]
  | (k, w) :: rest, key, v =>
      if k = key then (k, v) :: rest else (k, w) :: alSet rest key v

/-- `if (!m[k]) m[k] = []; m[k].push(x)`. -/
def alPush {α : Type} (m : List (String × List α)) (k : String) (x : α) :
    List (String × List α) :=
  match alFind m k with
  | some xs => alSet m k (xs ++ [x])
  | none => m ++ [(k, [x])]

/-- A row of the MySQL `information_schema.COLUMNS` query. -/
structure MysqlColRow where
  TABLE_NAME : String
  COLUMN_NAME : String
  COLUMN_DEFAULT : Option String
  IS_NULLABLE : String
  DATA_TYPE : String
  CHARACTER_MAXIMUM_LENGTH : Option Int
  NUMERIC_PRECISION : Option Int
  NUMERIC_SCALE : Option Int
  COLUMN_KEY : String
  EXTRA : String

/-- The column record pushed by `loadMysqlSchemaMap` (the source calls the
first field `default`; renamed `colDefault` here). -/
structure MysqlColumn where
  columnName : String
  colDefault : Option String
  isNullable : String
  dataType : String
  charMaxLength : Option Int
  numericPrecision : Option Int
  numericScale : Option Int
  key : String
  extra : String

def mysqlColOf (r : MysqlColRow) : MysqlColumn :=
  { columnName := r.COLUMN_NAME, colDefault := r.COLUMN_DEFAULT,
    isNullable := r.IS_NULLABLE, dataType := r.DATA_TYPE,
    charMaxLength := r.CHARACTER_MAXIMUM_LENGTH,
    numericPrecision := r.NUMERIC_PRECISION, numericScale := r.NUMERIC_SCALE,
    key := r.COLUMN_KEY, extra := r.EXTRA }

/-- A row of the MySQL `information_schema.STATISTICS` query. -/
structure MysqlIdxRow where
  TABLE_NAME : String
  INDEX_NAME : String
  COLUMN_NAME : String
  NON_UNIQUE : Int
  SEQ_IN_INDEX : Int
  INDEX_TYPE : String

/-- The index record shape shared by the MySQL loader and the PostgreSQL
index parser. -/
structure IndexEntry where
  indexName : String
  columnName : String
  nonUnique : Int
  seqInIndex : Int
  indexType : String

def mysqlIdxOf (r : MysqlIdxRow) : IndexEntry :=
  { indexName := r.INDEX_NAME, columnName := r.COLUMN_NAME,
    nonUnique := r.NON_UNIQUE, seqInIndex := r.SEQ_IN_INDEX,
    indexType := r.INDEX_TYPE }

/-- A row of the PostgreSQL per-schema columns query. -/
structure PgColRow where
  table_name : String
  column_name : String
  data_type : String
  character_maximum_length : Option Int
  numeric_precision : Option Int
  numeric_scale : Option Int
  is_nullable : String
  column_default : Option String
  ordinal_position : Int

structure PgColumn where
  columnName : String
  dataType : String
  maxLength : Option Int
  precision : Option Int
  scale : Option Int
  nullable : Bool
  defaultValue : Option String
  position : Int

def pgColOf (r : PgColRow) : PgColumn :=
  { columnName := r.column_name, dataType := r.data_type,
    maxLength := r.character_maximum_length, precision := r.numeric_precision,
    scale := r.numeric_scale, nullable := r.is_nullable == "YES",
    defaultValue := r.column_default, position := r.ordinal_position }

/-- A row of the `pg_indexes` query. -/
structure PgIdxRow where
  schemaname : String
  tablename : String
  indexname : String
  indexdef : String

/-- A row of the Databricks `information_schema.columns` query. -/
structure DbxColRow where
  table_catalog : String
  table_schema : String
  table_name : String
  column_name : String
  data_type : String
  is_nullable : String
  column_default : Option String
  ordinal_position : Int

structure DbxColumn where
  columnName : String
  dataType : String
  nullable : Bool
  defaultValue : Option String
  position : Int

def dbxColOf (r : DbxColRow) : DbxColumn :=
  { columnName := r.column_name, dataType := r.data_type,
    nullable := r.is_nullable == "YES", defaultValue := r.column_default,
    position := r.ordinal_position }

/-- A schema map value: the per-backend column record shapes. -/
inductive ColEntry where
  | mysql (c : MysqlColumn)
  | pg (c : PgColumn)
  | dbx (c : DbxColumn)
  | mongo (f : MongoField)

/-- The three module-level maps. -/
structure SMState where
  schemaMap : List (String × List ColEntry)
  indexMap : List (String × List IndexEntry)
  tableSizeCache : List (String × Int)

/-- Module state plus the aliasing flags for the references the connector
captured at import time (see the section comment). -/
structure ConnState where
  sm : SMState
  schemaCaptured : Bool
  indexCaptured : Bool
  sizeCaptured : Bool

/-- Process start: the maps are empty and the connector's captured
references are exactly the current objects. -/
def connInit : ConnState :=
  { sm := { schemaMap := [], indexMap := [], tableSizeCache := [] },
    schemaCaptured := true, indexCaptured := true, sizeCaptured := true }

/-! ### MySQL loaders -/

structure MysqlSchemaInput where
  colRows : Except String (List MysqlColRow)
  idxRows : Except String (List MysqlIdxRow)

def groupMysqlCols (rows : List MysqlColRow) : List (String × List ColEntry) :=
  rows.foldl (fun m r => alPush m r.TABLE_NAME (ColEntry.mysql (mysqlColOf r))) []

def groupMysqlIdx (rows : List MysqlIdxRow) : List (String × List IndexEntry) :=
  rows.foldl (fun m r => alPush m r.TABLE_NAME (mysqlIdxOf r)) []

/-- `loadMysqlSchemaMap`: two catalog queries; the schema map is
*reassigned* to a fresh object, then the index map is reassigned to `{}`
and filled.  Query failures propagate (no catch).  Result: the state after
the mutations performed so far, plus the thrown error if any. -/
def loadMysqlSchemaMap (inp : MysqlSchemaInput) (s : ConnState) :
    ConnState × Option String :=
  match inp.colRows with
  | .error e => (s, some e)
  | .ok rows =>
    let s1 : ConnState :=
      { s with sm := { s.sm with schemaMap := groupMysqlCols rows },
               schemaCaptured := false }
    match inp.idxRows with
    | .error e => (s1, some e)
    | .ok irows =>
      ({ s1 with sm := { s1.sm with indexMap := groupMysqlIdx irows },
                 indexCaptured := false }, none)

structure MysqlSizeRow where
  TABLE_NAME : String
  TABLE_ROWS : Int

structure MysqlSizeInput where
  rows : Except String (List MysqlSizeRow)

/-- `loadMysqlTableSizes`: writes each row into the *current*
`tableSizeCache` object without resetting it (a merge), and never
reassigns the binding. -/
def loadMysqlTableSizes (inp : MysqlSizeInput) (s : ConnState) :
    ConnState × Option String :=
  match inp.rows with
  | .error e => (s, some e)
  | .ok rows =>
    let cache := rows.foldl (fun m r => alSet m r.TABLE_NAME r.TABLE_ROWS)
      s.sm.tableSizeCache
    ({ s with sm := { s.sm with tableSizeCache := cache } }, none)

/-! ### PostgreSQL loaders -/

structure PgSchemaInput where
  schemasQ : Except String (List String)
  colsOf : String → Except String (List PgColRow)

/-- `loadAllPostgresSchemas`: resets the schema map binding, enumerates
schemas, loads per-schema columns into schema-qualified keys, skipping a
schema whose query fails; the outer catch swallows a total failure and
leaves the map `{}`.  Never throws. -/
def loadAllPostgresSchemas (inp : PgSchemaInput) (s : ConnState) :
    ConnState × Option String :=
  match inp.schemasQ with
  | .error _ =>
    ({ s with sm := { s.sm with schemaMap := [] }, schemaCaptured := false }, none)
  | .ok schemas =>
    let localMap := schemas.foldl (fun m sch =>
      match inp.colsOf sch with
      | .error _ => m
      | .ok rows =>
        rows.foldl (fun m r =>
          alPush m (sch ++ "." ++ r.table_name) (ColEntry.pg (pgColOf r))) m) []
    ({ s with sm := { s.sm with schemaMap := localMap },
              schemaCaptured := false }, none)

structure PgSizeRow where
  table_name : String
  table_rows : Option Int

structure PgSizeInput where
  schemasQ : Except String (List String)
  sizesOf : String → Except String (List PgSizeRow)

/-- `loadAllPostgresTableSizes`: resets the cache binding, then fills it
per schema from `pg_stat_user_tables` (`parseInt(..) || 0` modelled by
`Option.getD 0`); per-schema failures are skipped, a total failure is
swallowed leaving the cache as reset.  Never throws. -/
def loadAllPostgresTableSizes (inp : PgSizeInput) (s : ConnState) :
    ConnState × Option String :=
  match inp.schemasQ with
  | .error _ =>
    ({ s with sm := { s.sm with tableSizeCache := [] }, sizeCaptured := false }, none)
  | .ok schemas =>
    let cache := schemas.foldl (fun m sch =>
      match inp.sizesOf sch with
      | .error _ => m
      | .ok rows =>
        rows.foldl (fun m r => alSet m r.table_name (r.table_rows.getD 0)) m) []
    ({ s with sm := { s.sm with tableSizeCache := cache },
              sizeCaptured := false }, none)

structure PgIdxInput where
  rows : Except String (List PgIdxRow)

/-- `s.includes(sub)` for the fixed substrings used by the index parser. -/
def containsSubstr (s sub : String) : Bool := (s.splitOn sub).length > 1

/-- The regex `\(([^)]+)\)`: first `(` followed by at least one
non-`)` character and a closing `)`; returns the captured group. -/
def firstParenGroup' : List Char → Option (List Char)
  | [] => none
  | c :: rest =>
    if c = '(' then
      let inner := rest.takeWhile (fun d => d ≠ ')')
      if inner.length > 0 && (rest.drop inner.length).length > 0 then some inner
      else firstParenGroup' rest
    else firstParenGroup' rest

def firstParenGroup (s : String) : Option String :=
  (firstParenGroup' s.data).map (fun cs => String.mk cs)

/-- The column list extracted from an index definition:
`match[1].split(',').map(trim)`. -/
def indexDefColumns (indexdef : String) : List String :=
  match firstParenGroup indexdef with
  | some inner => (inner.splitOn ",").map String.trim
  | none => []

def indexDefType (indexdef : String) : String :=
  if containsSubstr indexdef "USING btree" then "BTREE"
  else if containsSubstr indexdef "USING hash" then "HASH"
  else if containsSubstr indexdef "USING gist" then "GIST"
  else if containsSubstr indexdef "USING gin" then "GIN"
  else "OTHER"

/-- The body of the per-row loop of `loadAllPostgresIndexes`, carrying the
`currentSchema`/`currentTable` trackers. -/
def pgIdxStep (st : (String × String) × List (String × List IndexEntry))
    (r : PgIdxRow) : (String × String) × List (String × List IndexEntry) :=
  let curSchema := st.1.1
  let curTable := st.1.2
  let m := st.2
  let qualified := r.schemaname ++ "." ++ r.tablename
  let curTable1 := if curSchema ≠ r.schemaname then "" else curTable
  let (curTable2, m1) :=
    if curTable1 ≠ qualified then (qualified, alSet m qualified []) else (curTable1, m)
  let cols := indexDefColumns r.indexdef
  let uniq := containsSubstr r.indexdef.toLower "unique index"
  let ity := indexDefType r.indexdef
  let m2 := (cols.enum.foldl (fun m ci =>
    alPush m qualified
      { indexName := r.indexname, columnName := ci.2,
        nonUnique := if uniq then 0 else 1, seqInIndex := Int.ofNat ci.1 + 1,
        indexType := ity }) m1)
  ((r.schemaname, curTable2), m2)

/-- `loadAllPostgresIndexes`: resets the index map binding, then fills it
from `pg_indexes` with the heuristic definition parser; a total failure is
caught and leaves the map `{}`.  Never throws. -/
def loadAllPostgresIndexes (inp : PgIdxInput) (s : ConnState) :
    ConnState × Option String :=
  match inp.rows with
  | .error _ =>
    ({ s with sm := { s.sm with indexMap := [] }, indexCaptured := false }, none)
  | .ok rows =>
    let m := (rows.foldl pgIdxStep (("", ""), [])).2
    ({ s with sm := { s.sm with indexMap := m }, indexCaptured := false }, none)


/-! ### MongoDB loaders -/

structure MongoCollInput where
  name : String
  docs : Except String (List JsVal)

structure MongoSchemaInput where
  collectionsQ : Except String (List MongoCollInput)

/-- `loadMongoSchemaMap`: a `listCollections` failure propagates; a
per-collection sampling failure is caught and recorded as an empty field
list; an empty sample records an empty field list; otherwise the inferred
descriptors are recorded.  The schema map binding is reassigned. -/
def loadMongoSchemaMap (inp : MongoSchemaInput) (s : ConnState) :
    ConnState × Option String :=
  match inp.collectionsQ with
  | .error e => (s, some e)
  | .ok colls =>
    let localMap := colls.foldl (fun m c =>
      match c.docs with
      | .error _ => alSet m c.name []
      | .ok docs =>
        if docs.length = 0 then alSet m c.name []
        else alSet m c.name ((inferFieldsFromDocuments docs).map ColEntry.mongo)) []
    ({ s with sm := { s.sm with schemaMap := localMap },
              schemaCaptured := false }, none)

structure MongoStatsInput where
  collectionsQ : Except String (List (String × Except String (Option Int)))

/-- `loadMongoCollectionStats`: per-collection `collStats`; a failing or
absent count is recorded as 0 (`stats.count || 0`); a `listCollections`
failure propagates.  The cache binding is reassigned. -/
def loadMongoCollectionStats (inp : MongoStatsInput) (s : ConnState) :
    ConnState × Option String :=
  match inp.collectionsQ with
  | .error e => (s, some e)
  | .ok colls =>
    let cache := colls.foldl (fun m c =>
      match c.2 with
      | .error _ => alSet m c.1 0
      | .ok cnt => alSet m c.1 (cnt.getD 0)) []
    ({ s with sm := { s.sm with tableSizeCache := cache },
              sizeCaptured := false }, none)

/-! ### Databricks loaders -/

structure DbxSchemaInput where
  openSessionQ : Except String Unit
  colsQ : Except String (List DbxColRow)

/-- `loadDatabricksSchemaMap`: loads `catalog.schema.table`-qualified
columns; the whole body is wrapped in a catch that swallows any failure
and leaves the schema map `{}`.  Never throws. -/
def loadDatabricksSchemaMap (inp : DbxSchemaInput) (s : ConnState) :
    ConnState × Option String :=
  match inp.openSessionQ with
  | .error _ =>
    ({ s with sm := { s.sm with schemaMap := [] }, schemaCaptured := false }, none)
  | .ok _ =>
    match inp.colsQ with
    | .error _ =>
      ({ s with sm := { s.sm with schemaMap := [] }, schemaCaptured := false }, none)
    | .ok rows =>
      let localMap := rows.foldl (fun m r =>
        alPush m (r.table_catalog ++ "." ++ r.table_schema ++ "." ++ r.table_name)
          (ColEntry.dbx (dbxColOf r))) []
      ({ s with sm := { s.sm with schemaMap := localMap },
                schemaCaptured := false }, none)

/-- One row of a `DESCRIBE DETAIL` result (`parseInt(numRows, 10) || 0`
modelled by `Option Int` + `getD 0`). -/
structure DbxDetailRow where
  numRows : Option Int

structure DbxTableRef where
  qualified_name : String

structure DbxSizeInput where
  openSessionQ : Except String Unit
  sysTablesQ : Except String (List DbxTableRef)
  describeDetailQ : String → Except String (List DbxDetailRow)
  showSchemasQ : Except String (List String)
  showTablesQ : String → Except String (List String)
  describeExtendedQ : String → Except String (Option Int)

/-- `loadDatabricksTableSizes`: two-tier strategy.  Tier 1 queries
`system.information_schema.tables` and, if it yields rows, collects
per-table `DESCRIBE DETAIL` row counts (a per-table failure becomes a
zero entry).  If the structured catalog is unavailable or empty, the
fallback enumerates schemas and tables with `SHOW` commands and
regex-extracts counts from `DESCRIBE EXTENDED` (modelled by
`describeExtendedQ`, `Option Int`: the extracted count, if any).  A
per-schema failure is skipped; any total failure is swallowed by the
outer catch, leaving the cache `{}`.  Never throws. -/
def loadDatabricksTableSizes (catalogName : String) (inp : DbxSizeInput)
    (s : ConnState) : ConnState × Option String :=
  match inp.openSessionQ with
  | .error _ =>
    ({ s with sm := { s.sm with tableSizeCache := [] }, sizeCaptured := false }, none)
  | .ok _ =>
    let tier1 := fun (tables : List DbxTableRef) =>
      let cache := tables.foldl (fun m t =>
        let rc : Int :=
          match inp.describeDetailQ t.qualified_name with
          | .error _ => 0
          | .ok desc =>
            match desc with
            | [] => 0
            | r0 :: _ => r0.numRows.getD 0
        alSet m t.qualified_name rc) []
      ({ s with sm := { s.sm with tableSizeCache := cache },
                sizeCaptured := false }, none)
    let fallback :=
      match inp.showSchemasQ with
      | .error _ =>
        ({ s with sm := { s.sm with tableSizeCache := [] },
                  sizeCaptured := false }, none)
      | .ok schemas =>
        let cache := schemas.foldl (fun m sch =>
          match inp.showTablesQ sch with
          | .error _ => m
          | .ok tbls => tbls.foldl (fun m tb =>
              let q := catalogName ++ "." ++ sch ++ "." ++ tb
              let rc : Int :=
                match inp.describeExtendedQ q with
                | .error _ => 0
                | .ok v => v.getD 0
              alSet m q rc) m) []
        ({ s with sm := { s.sm with tableSizeCache := cache },
                  sizeCaptured := false }, none)
    match inp.sysTablesQ with
    | .ok tables => if tables.length > 0 then tier1 tables else fallback
    | .error _ => fallback

/-! ### Dispatchers and `initMetadata` (connector/index.ts) -/

/-- The connection handed to the dispatchers, modelled by the results each
backend-specific loader would obtain from it. -/
structure DispatchInput where
  mysqlSchema : MysqlSchemaInput
  mysqlSizes : MysqlSizeInput
  pgSchema : PgSchemaInput
  pgSizes : PgSizeInput
  pgIdx : PgIdxInput
  mongoSchema : MongoSchemaInput
  mongoStats : MongoStatsInput
  dbxSchema : DbxSchemaInput
  dbxSizes : DbxSizeInput

/-- `loadSchemaMap(conn, dbName, databaseType, config)`: an if/else-if
chain over the discriminator with **no** else branch — an unknown
discriminator performs no load and raises no error. -/
def loadSchemaMap (dbName : String) (databaseType : String)
    (inp : DispatchInput) (s : ConnState) : ConnState × Option String :=
  if databaseType = "mysql" then loadMysqlSchemaMap inp.mysqlSchema s
  else if databaseType = "postgres" then loadAllPostgresSchemas inp.pgSchema s
  else if databaseType = "mongodb" then loadMongoSchemaMap inp.mongoSchema s
  else if databaseType = "databricks" then loadDatabricksSchemaMap inp.dbxSchema s
  else (s, none)

/-- `loadTableSizes(conn, dbName, databaseType, config)`: same shape. -/
def loadTableSizes (dbName : String) (databaseType : String)
    (inp : DispatchInput) (s : ConnState) : ConnState × Option String :=
  if databaseType = "mysql" then loadMysqlTableSizes inp.mysqlSizes s
  else if databaseType = "postgres" then loadAllPostgresTableSizes inp.pgSizes s
  else if databaseType = "mongodb" then loadMongoCollectionStats inp.mongoStats s
  else if databaseType = "databricks" then loadDatabricksTableSizes dbName inp.dbxSizes s
  else (s, none)

structure InitMetadataInput where
  connectQ : Except String Unit
  disp : DispatchInput

/-- The reset loop at the top of `initMetadata`:
`Object.keys(m).forEach(key => delete m[key])` over the three references
captured at import time.  It empties a live map only while the
corresponding binding still holds the captured object; a stale captured
object is emptied without observable effect. -/
def smDeleteLoop (s : ConnState) : ConnState :=
  { s with sm :=
    { schemaMap := if s.schemaCaptured then [] else s.sm.schemaMap,
      indexMap := if s.indexCaptured then [] else s.sm.indexMap,
      tableSizeCache := if s.sizeCaptured then [] else s.sm.tableSizeCache } }

/-- `initMetadata(cfg)` of `connector/index.ts`: reset loop, connect, then
`loadSchemaMap` → (`loadAllPostgresIndexes` →) `loadTableSizes` for the
postgres / mysql branch of `cfg.databaseType` (the connector supports only
those two; anything non-postgres takes the mysql branch).  A loader error
propagates, keeping the mutations made so far. -/
def initMetadata (isPostgres : Bool) (dbName : String) (inp : InitMetadataInput)
    (s : ConnState) : ConnState × Option String :=
  let s0 := smDeleteLoop s
  match inp.connectQ with
  | .error e => (s0, some e)
  | .ok _ =>
    if isPostgres then
      let r1 := loadSchemaMap dbName "postgres" inp.disp s0
      match r1.2 with
      | some e => (r1.1, some e)
      | none =>
        let r2 := loadAllPostgresIndexes inp.disp.pgIdx r1.1
        match r2.2 with
        | some e => (r2.1, some e)
        | none => loadTableSizes dbName "postgres" inp.disp r2.1
    else
      let r1 := loadSchemaMap dbName "mysql" inp.disp s0
      match r1.2 with
      | some e => (r1.1, some e)
      | none => loadTableSizes dbName "mysql" inp.disp r1.1


/-! ## Key-set lemmas for the loaders -/

theorem keys_alSet {α : Type} (m : List (String × α)) (k : String) (v : α) :
    ∀ q, q ∈ (alSet m k v).map Prod.fst → q = k ∨ q ∈ m.map Prod.fst := by
  induction m with
  | nil =>
    intro q h
    simp [alSet] at h
    exact Or.inl h
  | cons kv rest ih =>
    obtain ⟨k', w⟩ := kv
    intro q h
    rw [alSet] at h
    by_cases hk : k' = k
    · rw [if_pos hk] at h
      rw [List.map_cons, List.mem_cons] at h
      rcases h with h | h
      · exact Or.inl (h.trans hk)
      · exact Or.inr (by rw [List.map_cons, List.mem_cons]; exact Or.inr h)
    · rw [if_neg hk] at h
      rw [List.map_cons, List.mem_cons] at h
      rcases h with h | h
      · exact Or.inr (by rw [List.map_cons, List.mem_cons]; exact Or.inl h)
      · rcases ih q h with h' | h'
        · exact Or.inl h'
        · exact Or.inr (by rw [List.map_cons, List.mem_cons]; exact Or.inr h')

theorem keys_alPush {α : Type} (m : List (String × List α)) (k : String) (x : α) :
    ∀ q, q ∈ (alPush m k x).map Prod.fst → q = k ∨ q ∈ m.map Prod.fst := by
  intro q h
  rw [alPush] at h
  cases hf : alFind m k with
  | some xs =>
    rw [hf] at h
    exact keys_alSet m k (xs ++ [x]) q h
  | none =>
    rw [hf] at h
    rw [List.map_append] at h
    rcases List.mem_append.mp h with h | h
    · exact Or.inr h
    · rw [List.map_cons, List.map_nil, List.mem_singleton] at h
      exact Or.inl h

theorem keys_foldl {β α : Type} (step : List (String × α) → β → List (String × α))
    (f : β → String)
    (hstep : ∀ m r q, q ∈ (step m r).map Prod.fst → q = f r ∨ q ∈ m.map Prod.fst) :
    ∀ (rows : List β) (init : List (String × α)) q,
      q ∈ ((rows.foldl step init).map Prod.fst) →
      q ∈ init.map Prod.fst ∨ q ∈ rows.map f := by
  intro rows
  induction rows with
  | nil => intro init q h; exact Or.inl h
  | cons r rest ih =>
    intro init q h
    rw [List.foldl_cons] at h
    rcases ih _ q h with h' | h'
    · rcases hstep init r q h' with h'' | h''
      · right; rw [h'', List.map_cons]; exact List.mem_cons_self _ _
      · exact Or.inl h''
    · right; rw [List.map_cons]; exact List.mem_cons_of_mem _ h'

theorem keys_groupMysqlCols (cols : List MysqlColRow) (q : String) :
    q ∈ (groupMysqlCols cols).map Prod.fst → q ∈ cols.map MysqlColRow.TABLE_NAME := by
  intro h
  rcases keys_foldl _ MysqlColRow.TABLE_NAME
    (fun m r => keys_alPush m r.TABLE_NAME (ColEntry.mysql (mysqlColOf r)))
    cols [] q h with h' | h'
  · exact absurd h' (List.not_mem_nil q)
  · exact h'

theorem keys_groupMysqlIdx (idxs : List MysqlIdxRow) (q : String) :
    q ∈ (groupMysqlIdx idxs).map Prod.fst → q ∈ idxs.map MysqlIdxRow.TABLE_NAME := by
  intro h
  rcases keys_foldl _ MysqlIdxRow.TABLE_NAME
    (fun m r => keys_alPush m r.TABLE_NAME (mysqlIdxOf r)) idxs [] q h with h' | h'
  · exact absurd h' (List.not_mem_nil q)
  · exact h'

theorem keys_foldl_sizes (sizes : List MysqlSizeRow) (q : String) :
    q ∈ ((sizes.foldl (fun m r => alSet m r.TABLE_NAME r.TABLE_ROWS) []).map Prod.fst) →
    q ∈ sizes.map MysqlSizeRow.TABLE_NAME := by
  intro h
  rcases keys_foldl _ MysqlSizeRow.TABLE_NAME
    (fun m r => keys_alSet m r.TABLE_NAME r.TABLE_ROWS) sizes [] q h with h' | h'
  · exact absurd h' (List.not_mem_nil q)
  · exact h'

/-! ## Claim C1 -/

/-- The dispatcher applied to the literal `"mysql"` / `"postgres"`
discriminators. -/
theorem loadSchemaMap_mysql (dbName : String) (inp : DispatchInput) (s : ConnState) :
    loadSchemaMap dbName "mysql" inp s = loadMysqlSchemaMap inp.mysqlSchema s := rfl

theorem loadSchemaMap_postgres (dbName : String) (inp : DispatchInput) (s : ConnState) :
    loadSchemaMap dbName "postgres" inp s = loadAllPostgresSchemas inp.pgSchema s := rfl

theorem loadTableSizes_mysql (dbName : String) (inp : DispatchInput) (s : ConnState) :
    loadTableSizes dbName "mysql" inp s = loadMysqlTableSizes inp.mysqlSizes s := rfl

theorem loadTableSizes_postgres (dbName : String) (inp : DispatchInput) (s : ConnState) :
    loadTableSizes dbName "postgres" inp s = loadAllPostgresTableSizes inp.pgSizes s := rfl

/-- A mysql-branch `initMetadata` call never reassigns the
`tableSizeCache` binding, so the captured-reference flag survives. -/
theorem initMetadata_mysql_sizeCaptured (dbName : String) (inp : InitMetadataInput)
    (s : ConnState) :
    ((initMetadata false dbName inp s).1).sizeCaptured = s.sizeCaptured := by
  cases hq : inp.connectQ with
  | error e => simp [initMetadata, hq, smDeleteLoop]
  | ok u =>
    cases hc : inp.disp.mysqlSchema.colRows with
    | error e =>
      simp [initMetadata, hq, hc, smDeleteLoop, loadSchemaMap_mysql, loadMysqlSchemaMap]
    | ok rows =>
      cases hi : inp.disp.mysqlSchema.idxRows with
      | error e =>
        simp [initMetadata, hq, hc, hi, smDeleteLoop, loadSchemaMap_mysql,
          loadMysqlSchemaMap]
      | ok irows =>
        cases hs : inp.disp.mysqlSizes.rows with
        | error e =>
          simp [initMetadata, hq, hc, hi, hs, smDeleteLoop, loadSchemaMap_mysql,
            loadMysqlSchemaMap, loadTableSizes_mysql, loadMysqlTableSizes]
        | ok srows =>
          simp [initMetadata, hq, hc, hi, hs, smDeleteLoop, loadSchemaMap_mysql,
            loadMysqlSchemaMap, loadTableSizes_mysql, loadMysqlTableSizes]

/-- The module state reached by a sequence of mysql-branch reloads. -/
def mysqlHistState (dbName : String) (hist : List InitMetadataInput) : ConnState :=
  hist.foldl (fun st i => (initMetadata false dbName i st).1) connInit

theorem mysqlHistState_sizeCaptured (dbName : String) (hist : List InitMetadataInput) :
    (mysqlHistState dbName hist).sizeCaptured = true := by
  suffices h : ∀ (st : ConnState), st.sizeCaptured = true →
      (hist.foldl (fun st i => (initMetadata false dbName i st).1) st).sizeCaptured = true by
    exact h connInit rfl
  induction hist with
  | nil => intro st h; exact h
  | cons i rest ih =>
    intro st h
    rw [List.foldl_cons]
    exact ih _ (by rw [initMetadata_mysql_sizeCaptured]; exact h)

/-- **C1, amended.** Full replacement holds for reload sequences that stay
on one backend: (mysql) after any history of mysql-branch `initMetadata`
reloads, a further successful mysql reload leaves in each of the three
maps only keys reported by its own catalog queries; (postgres) a
successful postgres-branch reload produces maps that do not depend on the
prior state at all.  (A mysql reload after a *postgres* reload violates
full replacement — see the counterexample — because the mysql size loader
merges into the current map while the reset loop clears a stale captured
object.) -/
theorem initMetadata_same_backend_full_replacement :
    (∀ (dbName : String) (hist : List InitMetadataInput) (inp : InitMetadataInput)
       (cols : List MysqlColRow) (idxs : List MysqlIdxRow) (sizes : List MysqlSizeRow),
       inp.connectQ = .ok () →
       inp.disp.mysqlSchema.colRows = .ok cols →
       inp.disp.mysqlSchema.idxRows = .ok idxs →
       inp.disp.mysqlSizes.rows = .ok sizes →
       ((initMetadata false dbName inp (mysqlHistState dbName hist)).1.sm.schemaMap.map
           Prod.fst ⊆ cols.map MysqlColRow.TABLE_NAME) ∧
       ((initMetadata false dbName inp (mysqlHistState dbName hist)).1.sm.indexMap.map
           Prod.fst ⊆ idxs.map MysqlIdxRow.TABLE_NAME) ∧
       ((initMetadata false dbName inp (mysqlHistState dbName hist)).1.sm.tableSizeCache.map
           Prod.fst ⊆ sizes.map MysqlSizeRow.TABLE_NAME)) ∧
    (∀ (dbName : String) (s t : ConnState) (inp : InitMetadataInput),
       inp.connectQ = .ok () →
       (initMetadata true dbName inp s).1.sm = (initMetadata true dbName inp t).1.sm) := by
  constructor
  · intro dbName hist inp cols idxs sizes h0 h1 h2 h3
    have hcap := mysqlHistState_sizeCaptured dbName hist
    have hcomp : (initMetadata false dbName inp (mysqlHistState dbName hist)).1.sm =
        { schemaMap := groupMysqlCols cols, indexMap := groupMysqlIdx idxs,
          tableSizeCache :=
            sizes.foldl (fun m r => alSet m r.TABLE_NAME r.TABLE_ROWS) [] } := by
      simp [initMetadata, h0, loadSchemaMap_mysql, loadMysqlSchemaMap, h1, h2,
        loadTableSizes_mysql, loadMysqlTableSizes, h3, smDeleteLoop, hcap]
    rw [hcomp]
    exact ⟨fun q hq => keys_groupMysqlCols cols q hq,
           fun q hq => keys_groupMysqlIdx idxs q hq,
           fun q hq => keys_foldl_sizes sizes q hq⟩
  · intro dbName s t inp h0
    cases hs1 : inp.disp.pgSchema.schemasQ <;>
      cases hs2 : inp.disp.pgIdx.rows <;>
        cases hs3 : inp.disp.pgSizes.schemasQ <;>
          simp [initMetadata, h0, loadSchemaMap_postgres, loadAllPostgresSchemas,
            loadAllPostgresIndexes, loadTableSizes_postgres, loadAllPostgresTableSizes,
            smDeleteLoop, hs1, hs2, hs3]

/-- An input whose every query yields an empty success. -/
def trivDispatchInput : DispatchInput :=
  { mysqlSchema := ⟨.ok [], .ok []⟩
    mysqlSizes := ⟨.ok []⟩
    pgSchema := ⟨.ok [], fun _ => .ok []⟩
    pgSizes := ⟨.ok [], fun _ => .ok []⟩
    pgIdx := ⟨.ok []⟩
    mongoSchema := ⟨.ok []⟩
    mongoStats := ⟨.ok []⟩
    dbxSchema := ⟨.ok (), .ok []⟩
    dbxSizes := ⟨.ok (), .ok [], fun _ => .ok [], .ok [], fun _ => .ok [],
      fun _ => .ok none⟩ }

def c1PgColRow (tname cname : String) : PgColRow :=
  { table_name := tname, column_name := cname, data_type := "text",
    character_maximum_length := none, numeric_precision := none,
    numeric_scale := none, is_nullable := "NO", column_default := none,
    ordinal_position := 1 }

/-- A postgres reload whose backend reports two tables. -/
def c1pgInput : InitMetadataInput :=
  { connectQ := .ok ()
    disp := { trivDispatchInput with
      pgSchema := ⟨.ok ["public"],
        fun _ => .ok [c1PgColRow "orders" "id", c1PgColRow "users" "id"]⟩
      pgSizes := ⟨.ok ["public"],
        fun _ => .ok [⟨"public.orders", some 5⟩, ⟨"public.users", some 7⟩]⟩ } }

def c1MyColRow : MysqlColRow :=
  { TABLE_NAME := "t", COLUMN_NAME := "c", COLUMN_DEFAULT := none,
    IS_NULLABLE := "NO", DATA_TYPE := "int", CHARACTER_MAXIMUM_LENGTH := none,
    NUMERIC_PRECISION := none, NUMERIC_SCALE := none, COLUMN_KEY := "",
    EXTRA := "" }

def c1mySizeRows : List MysqlSizeRow := [⟨"t", 10⟩]

/-- A subsequent mysql reload whose backend reports a single table `t`
(fewer tables than the previous postgres load). -/
def c1myInput : InitMetadataInput :=
  { connectQ := .ok ()
    disp := { trivDispatchInput with
      mysqlSchema := ⟨.ok [c1MyColRow], .ok []⟩
      mysqlSizes := ⟨.ok c1mySizeRows⟩ } }

/-- **C1, counterexample.** The claim states that after reloading against
a configuration whose backend reports fewer tables than the previous
load, no key from the previous load absent from the new catalog remains
in any of the three maps.  After a postgres reload (tables
`public.orders`, `public.users`) followed by a mysql reload whose catalog
lists only `t`, the key `public.orders` is still in `TableSizeCache`: the
postgres size loader reassigned the map object, so the reset loop in
`initMetadata` cleared a stale captured object while `loadMysqlTableSizes`
merged into the live one. -/
theorem initMetadata_mixed_backend_retains_stale_size_key :
    "public.orders" ∈ ((initMetadata false "db" c1myInput
        (initMetadata true "db" c1pgInput connInit).1).1.sm.tableSizeCache.map Prod.fst) ∧
      "public.orders" ∉ c1mySizeRows.map MysqlSizeRow.TABLE_NAME := by
  constructor <;> decide

/-- Witness for `initMetadata_same_backend_full_replacement`: a first
mysql load (history `[c1myInput]`) followed by a mysql reload of the same
configuration leaves only keys of the new catalog. -/
theorem initMetadata_same_backend_full_replacement_witness :
    ((initMetadata false "db" c1myInput (mysqlHistState "db" [c1myInput])).1.sm.tableSizeCache.map
        Prod.fst ⊆ c1mySizeRows.map MysqlSizeRow.TABLE_NAME) :=
  (initMetadata_same_backend_full_replacement.1 "db" [c1myInput] c1myInput
    [c1MyColRow] [] c1mySizeRows rfl rfl rfl rfl).2.2


/-! ## Claim C2 -/

/-- A warehouse size-load input whose session cannot even be opened: a
total failure. -/
def dbxFailSizeInput : DbxSizeInput :=
  { openSessionQ := .error "connection lost", sysTablesQ := .ok [],
    describeDetailQ := fun _ => .ok [], showSchemasQ := .ok [],
    showTablesQ := fun _ => .ok [], describeExtendedQ := fun _ => .ok none }

/-- A `pg_indexes` query that rejects: a total failure of the
multi-schema index loader. -/
def pgFailIdxInput : PgIdxInput := ⟨.error "connection lost"⟩

/-- A state with one indexed table and one cached size, to watch what a
failing loader does to it. -/
def c2State : ConnState :=
  { sm := { schemaMap := [],
            indexMap := [("public.t", [])],
            tableSizeCache := [("public.t", 5)] },
    schemaCaptured := true, indexCaptured := true, sizeCaptured := true }

/-- **C2, counterexample.** The claim states that a total failure of the
warehouse table-size loader or of the multi-schema index loader must
raise an error rather than yield an empty map.  On a total failure both
loaders return normally (no error) with the corresponding map reset to
empty. -/
theorem dbx_sizes_pg_indexes_no_error_on_total_failure :
    (loadDatabricksTableSizes "cat" dbxFailSizeInput c2State).2 = none ∧
    (loadDatabricksTableSizes "cat" dbxFailSizeInput c2State).1.sm.tableSizeCache = [] ∧
    (loadAllPostgresIndexes pgFailIdxInput c2State).2 = none ∧
    (loadAllPostgresIndexes pgFailIdxInput c2State).1.sm.indexMap = [] :=
  ⟨rfl, rfl, rfl, rfl⟩

/-- **C2, amended.** On total failure the warehouse table-size loader and
the multi-schema index loader log and reset their map to empty *without*
raising; by contrast the single-catalog (mysql) loaders propagate query
failures to the caller. -/
theorem loader_total_failure_behavior (e : String) (catalogName : String)
    (inpD : DbxSizeInput) (inpP : PgIdxInput) (inpM : MysqlSizeInput) (s : ConnState)
    (hD : inpD.openSessionQ = .error e) (hP : inpP.rows = .error e)
    (hM : inpM.rows = .error e) :
    loadDatabricksTableSizes catalogName inpD s =
      ({ s with sm := { s.sm with tableSizeCache := [] }, sizeCaptured := false },
        none) ∧
    loadAllPostgresIndexes inpP s =
      ({ s with sm := { s.sm with indexMap := [] }, indexCaptured := false }, none) ∧
    loadMysqlTableSizes inpM s = (s, some e) := by
  refine ⟨?_, ?_, ?_⟩
  · simp [loadDatabricksTableSizes, hD]
  · simp [loadAllPostgresIndexes, hP]
  · simp [loadMysqlTableSizes, hM]

/-- Witness for `loader_total_failure_behavior` at the concrete failing
inputs. -/
theorem loader_total_failure_behavior_witness :
    loadDatabricksTableSizes "cat" dbxFailSizeInput c2State =
      ({ c2State with
          sm := { c2State.sm with tableSizeCache := [] }
          sizeCaptured := false }, none) ∧
    loadAllPostgresIndexes pgFailIdxInput c2State =
      ({ c2State with
          sm := { c2State.sm with indexMap := [] }
          indexCaptured := false }, none) ∧
    loadMysqlTableSizes ⟨.error "connection lost"⟩ c2State =
      (c2State, some "connection lost") :=
  loader_total_failure_behavior "connection lost" "cat" dbxFailSizeInput
    pgFailIdxInput ⟨.error "connection lost"⟩ c2State rfl rfl rfl

/-! ## Claim C3 -/

/-- **C3, counterexample.** The claim states that an unknown backend
discriminator makes `loadSchemaMap` / `loadTableSizes` raise a
configuration error.  With discriminator `"oracle"` both dispatchers
return normally — no error — and leave the state untouched (they do not
default to another backend either, but the claimed error never
happens). -/
theorem dispatch_unknown_backend_no_error :
    loadSchemaMap "db" "oracle" trivDispatchInput connInit = (connInit, none) ∧
    loadTableSizes "db" "oracle" trivDispatchInput connInit = (connInit, none) :=
  ⟨rfl, rfl⟩

/-- **C3, amended.** For every discriminator outside the four known kinds
the dispatchers are a silent no-op: no loading strategy runs, the state
is unchanged, and no error is raised (in particular nothing is silently
defaulted to another backend). -/
theorem dispatch_unknown_backend_silent_noop (dbName dbType : String)
    (inp : DispatchInput) (s : ConnState)
    (h1 : dbType ≠ "mysql") (h2 : dbType ≠ "postgres")
    (h3 : dbType ≠ "mongodb") (h4 : dbType ≠ "databricks") :
    loadSchemaMap dbName dbType inp s = (s, none) ∧
    loadTableSizes dbName dbType inp s = (s, none) := by
  constructor <;> simp [loadSchemaMap, loadTableSizes, h1, h2, h3, h4]

/-- Witness for `dispatch_unknown_backend_silent_noop` at the
discriminator `"sqlite"`. -/
theorem dispatch_unknown_backend_silent_noop_witness :
    loadSchemaMap "mydb" "sqlite" trivDispatchInput connInit = (connInit, none) ∧
    loadTableSizes "mydb" "sqlite" trivDispatchInput connInit = (connInit, none) :=
  dispatch_unknown_backend_silent_noop "mydb" "sqlite" trivDispatchInput connInit
    (by decide) (by decide) (by decide) (by decide)


/-! ## Databricks connection manager (src/index.ts)

A single-threaded event-loop model: a `getConnection` call's synchronous
prefix (configuration check, key computation, pool and in-flight lookups,
in-flight registration) runs atomically; only `await` points yield.  The
in-flight promise map stores each promise together with its eventual
result, so awaiting a stored promise returns that stored result. -/

structure DbCfg where
  databaseType : String
  host : String
  user : String
  password : String
  database : String
  port : Option Nat
  databricksHttpPath : Option String

/-- `private readonly CONNECTION_TIMEOUT = 30000`. -/
def CONNECTION_TIMEOUT : Nat := 30000

/-- `private readonly IDLE_TIMEOUT = 300000`. -/
def IDLE_TIMEOUT : Int := 300000

/-- The `setInterval` period of the constructor's idle sweep. -/
def CLEANUP_INTERVAL_MS : Nat := 60000

/-- `cfg.port || 443` (JavaScript `||`: both `undefined` and `0` are
falsy). -/
def jsPortOr443 : Option Nat → Nat
  | none => 443
  | some 0 => 443
  | some p => p

/-- `` `${cfg.host}:${cfg.port || 443}:${cfg.user}:${cfg.database}` ``. -/
def getConnectionKey (cfg : DbCfg) : String :=
  cfg.host ++ ":" ++ toString (jsPortOr443 cfg.port) ++ ":" ++ cfg.user ++ ":" ++
    cfg.database

/-- A pooled handle; `clientId` stands for the identity of the underlying
driver client object. -/
structure DatabricksConnection where
  clientId : Nat
  isConnected : Bool
  lastUsed : Int
  config : DbCfg

structure PoolState where
  connections : List (String × DatabricksConnection)
  inflight : List (String × Except String DatabricksConnection)

def poolInit : PoolState := { connections := [], inflight := [] }

/-- The outcome of the underlying `client.connect(...)` attempt: what it
would settle to and after how many milliseconds. -/
inductive ConnectOutcome where
  | success (clientId : Nat) (elapsedMs : Nat)
  | failure (msg : String) (elapsedMs : Nat)

/-- `!httpPath` (`undefined` and the empty string are falsy). -/
def missingHttpPath : Option String → Bool
  | none => true
  | some s => s.isEmpty

/-- `createConnection`: dynamic driver import, `httpPath` check, then the
connect attempt raced against the fixed timeout (an attempt that has not
settled within `CONNECTION_TIMEOUT` loses the race to the timeout
rejection). -/
def createConnection (cfg : DbCfg) (driverInstalled : Bool) (oc : ConnectOutcome)
    (now : Int) : Except String DatabricksConnection :=
  if !driverInstalled then
    .error "Databricks SQL driver not found. Please install: npm install @databricks/sql"
  else if missingHttpPath cfg.databricksHttpPath then
    .error "Missing Databricks httpPath in configuration"
  else
    match oc with
    | .success cid t =>
      if t < CONNECTION_TIMEOUT then .ok ⟨cid, true, now, cfg⟩
      else .error "Databricks connection timeout"
    | .failure msg t =>
      if t < CONNECTION_TIMEOUT then .error msg
      else .error "Databricks connection timeout"

/-- The cache-miss path of `getConnection`: await a registered in-flight
promise if one exists, otherwise run `createConnection`, registering the
promise before the await and deleting the registration in the `finally`
(net effect on a previously absent key: none). -/
def getConnectionMiss (cfg : DbCfg) (driverInstalled : Bool) (oc : ConnectOutcome)
    (now : Int) (st : PoolState) (key : String) :
    Except String DatabricksConnection × PoolState :=
  match alFind st.inflight key with
  | some res => (res, st)
  | none =>
    match createConnection cfg driverInstalled oc now with
    | .ok conn => (.ok conn, { st with connections := alSet st.connections key conn })
    | .error e => (.error e, st)

/-- `DatabricksConnectionManager.getConnection`. -/
def getConnection (cfg : DbCfg) (driverInstalled : Bool) (oc : ConnectOutcome)
    (now : Int) (st : PoolState) : Except String DatabricksConnection × PoolState :=
  if cfg.databaseType ≠ "databricks" then
    (.error "This method is only for Databricks connections", st)
  else
    let key := getConnectionKey cfg
    match alFind st.connections key with
    | some existing =>
      if existing.isConnected then
        let updated := { existing with lastUsed := now }
        (.ok updated, { st with connections := alSet st.connections key updated })
      else getConnectionMiss cfg driverInstalled oc now st key
    | none => getConnectionMiss cfg driverInstalled oc now st key

/-- `cleanupIdleConnections`: every handle with
`now - lastUsed > IDLE_TIMEOUT` is closed and deleted; the rest stay. -/
def cleanupIdleConnections (now : Int) (st : PoolState) : PoolState :=
  { st with connections :=
      st.connections.filter (fun kv => decide (now - kv.2.lastUsed ≤ IDLE_TIMEOUT)) }

/-- Whether a single `getConnection` call on `st` reaches
`createConnection` (exactly when it neither finds a live handle nor an
in-flight initialization). -/
def connectAttemptsOfCall (cfg : DbCfg) (st : PoolState) : Nat :=
  if cfg.databaseType ≠ "databricks" then 0
  else
    let key := getConnectionKey cfg
    let miss := match alFind st.inflight key with
                | some _ => 0
                | none => 1
    match alFind st.connections key with
    | some ex => if ex.isConnected then 0 else miss
    | none => miss

/-- Two concurrent `getConnection` calls under the event-loop model:
caller A runs its synchronous prefix first; if A starts a connect, it
registers the in-flight promise before suspending, so caller B's prefix
observes it; A's continuation resumes first when the promise settles.
(When the two keys differ, B is modelled as running after A completes —
the deduplication claim concerns equal keys only.)  Returns the number of
underlying connect attempts, both results, and the final pool. -/
def runTwoConcurrent (cfgA cfgB : DbCfg) (driverInstalled : Bool)
    (ocA ocB : ConnectOutcome) (now : Int) (st : PoolState) :
    Nat × Except String DatabricksConnection × Except String DatabricksConnection ×
      PoolState :=
  if cfgA.databaseType ≠ "databricks" then
    let rB := getConnection cfgB driverInstalled ocB now st
    (connectAttemptsOfCall cfgB st,
      .error "This method is only for Databricks connections", rB.1, rB.2)
  else
    let keyA := getConnectionKey cfgA
    let hit := fun (ex : DatabricksConnection) =>
      let updated := { ex with lastUsed := now }
      let st1 := { st with connections := alSet st.connections keyA updated }
      let rB := getConnection cfgB driverInstalled ocB now st1
      (connectAttemptsOfCall cfgB st1, Except.ok updated, rB.1, rB.2)
    let miss :=
      match alFind st.inflight keyA with
      | some res =>
        let rB := getConnection cfgB driverInstalled ocB now st
        (connectAttemptsOfCall cfgB st, res, rB.1, rB.2)
      | none =>
        let res := createConnection cfgA driverInstalled ocA now
        let stA :=
          match res with
          | .ok conn => { st with connections := alSet st.connections keyA conn }
          | .error _ => st
        if getConnectionKey cfgB = keyA then
          (1, res, res, stA)
        else
          let rB := getConnection cfgB driverInstalled ocB now stA
          (1 + connectAttemptsOfCall cfgB stA, res, rB.1, rB.2)
    match alFind st.connections keyA with
    | some ex => if ex.isConnected then hit ex else miss
    | none => miss


/-! ## Claims C7 and C8 -/

/-- **C7 (confirmed).** When `getConnection` finds no handle and no
in-flight initialization for the key, it runs a fresh connect raced
against the fixed 30-second timeout: on success the new handle is stored
under the key (and the in-flight map is net unchanged); on failure the
error is raised and the pool is left exactly as it was; a connect attempt
that has not settled within the timeout yields the timeout error. -/
theorem getConnection_fresh_connect (cfg : DbCfg) (drv : Bool) (oc : ConnectOutcome)
    (now : Int) (st : PoolState)
    (hdb : cfg.databaseType = "databricks")
    (hc : alFind st.connections (getConnectionKey cfg) = none)
    (hi : alFind st.inflight (getConnectionKey cfg) = none) :
    CONNECTION_TIMEOUT = 30000 ∧
    (∀ conn st', getConnection cfg drv oc now st = (.ok conn, st') →
       st'.connections = alSet st.connections (getConnectionKey cfg) conn ∧
       st'.inflight = st.inflight) ∧
    (∀ e st', getConnection cfg drv oc now st = (.error e, st') → st' = st) ∧
    (∀ cid t, drv = true → missingHttpPath cfg.databricksHttpPath = false →
       oc = .success cid t → CONNECTION_TIMEOUT ≤ t →
       (getConnection cfg drv oc now st).1 = .error "Databricks connection timeout") := by
  have hg : getConnection cfg drv oc now st =
      match createConnection cfg drv oc now with
      | .ok conn =>
        (.ok conn,
          { st with connections := alSet st.connections (getConnectionKey cfg) conn })
      | .error e => (.error e, st) := by
    simp [getConnection, hdb, hc, getConnectionMiss, hi]
  refine ⟨rfl, ?_, ?_, ?_⟩
  · intro conn st' h
    rw [hg] at h
    cases hcc : createConnection cfg drv oc now with
    | ok c =>
      rw [hcc] at h
      injection h with h1 h2
      injection h1 with h3
      subst h3
      exact ⟨by rw [← h2], by rw [← h2]⟩
    | error e =>
      rw [hcc] at h
      injection h with h1 h2
      exact Except.noConfusion h1
  · intro e st' h
    rw [hg] at h
    cases hcc : createConnection cfg drv oc now with
    | ok c =>
      rw [hcc] at h
      injection h with h1 h2
      exact Except.noConfusion h1
    | error e' =>
      rw [hcc] at h
      injection h with h1 h2
      exact h2.symm
  · intro cid t hdrv hpath hoc ht
    subst hoc
    rw [hg]
    have hlt : ¬ t < CONNECTION_TIMEOUT := by omega
    simp [createConnection, hdrv, hpath, hlt]

def cfgA : DbCfg :=
  { databaseType := "databricks", host := "h.example", user := "u",
    password := "tokenA", database := "d", port := none,
    databricksHttpPath := some "/sql/1" }

/-- The same warehouse target as `cfgA`, but presented with a different
token. -/
def cfgB : DbCfg := { cfgA with password := "tokenB" }

/-- Witness for `getConnection_fresh_connect`: a successful fresh connect
on an empty pool stores the handle and leaves no in-flight entry. -/
theorem getConnection_fresh_connect_witness :
    (getConnection cfgA true (ConnectOutcome.success 7 100) 1000 poolInit).2.connections =
        alSet poolInit.connections (getConnectionKey cfgA) ⟨7, true, 1000, cfgA⟩ ∧
    (getConnection cfgA true (ConnectOutcome.success 7 100) 1000 poolInit).2.inflight =
        poolInit.inflight := by
  have h := getConnection_fresh_connect cfgA true (.success 7 100) 1000 poolInit
    rfl rfl rfl
  exact h.2.1 ⟨7, true, 1000, cfgA⟩ _ rfl

/-- **C8 (confirmed).** Under the event-loop interleaving model, two
concurrent `getConnection` calls whose configurations map to the same
key, with no cached handle and no in-flight entry, perform exactly one
underlying connect attempt and both receive the same result; and in
general a caller that finds an in-flight initialization for its key
returns that stored result without touching the pool. -/
theorem concurrent_getConnection_single_attempt (cfgX cfgY : DbCfg) (drv : Bool)
    (ocA ocB : ConnectOutcome) (now : Int) (st : PoolState)
    (hA : cfgX.databaseType = "databricks")
    (hkey : getConnectionKey cfgY = getConnectionKey cfgX)
    (hc : alFind st.connections (getConnectionKey cfgX) = none)
    (hi : alFind st.inflight (getConnectionKey cfgX) = none) :
    (runTwoConcurrent cfgX cfgY drv ocA ocB now st).1 = 1 ∧
    (runTwoConcurrent cfgX cfgY drv ocA ocB now st).2.1 =
      (runTwoConcurrent cfgX cfgY drv ocA ocB now st).2.2.1 ∧
    (∀ (cfg : DbCfg) (drv' : Bool) (oc' : ConnectOutcome) (now' : Int)
        (st' : PoolState) (res : Except String DatabricksConnection),
       cfg.databaseType = "databricks" →
       alFind st'.connections (getConnectionKey cfg) = none →
       alFind st'.inflight (getConnectionKey cfg) = some res →
       getConnection cfg drv' oc' now' st' = (res, st')) := by
  refine ⟨?_, ?_, ?_⟩
  · simp [runTwoConcurrent, hA, hc, hi, hkey]
  · simp [runTwoConcurrent, hA, hc, hi, hkey]
  · intro cfg drv' oc' now' st' res hdb' hc' hi'
    simp [getConnection, hdb', hc', getConnectionMiss, hi']

/-- Witness for `concurrent_getConnection_single_attempt`: two callers
with the same target (different tokens) on an empty pool. -/
theorem concurrent_getConnection_single_attempt_witness :
    (runTwoConcurrent cfgA cfgB true (ConnectOutcome.success 7 100)
        (ConnectOutcome.success 8 100) 1000 poolInit).1 = 1 ∧
    (runTwoConcurrent cfgA cfgB true (ConnectOutcome.success 7 100)
        (ConnectOutcome.success 8 100) 1000 poolInit).2.1 =
      (runTwoConcurrent cfgA cfgB true (ConnectOutcome.success 7 100)
        (ConnectOutcome.success 8 100) 1000 poolInit).2.2.1 := by
  have h := concurrent_getConnection_single_attempt cfgA cfgB true
    (.success 7 100) (.success 8 100) 1000 poolInit rfl rfl rfl rfl
  exact ⟨h.1, h.2.1⟩

/-! ## Claim C9 -/

theorem alFind_eq_none_of_not_mem_keys {α : Type} :
    ∀ (l : List (String × α)) (k : String), k ∉ l.map Prod.fst → alFind l k = none := by
  intro l
  induction l with
  | nil => intro k _; rfl
  | cons kv rest ih =>
    obtain ⟨k0, v0⟩ := kv
    intro k hk
    rw [List.map_cons, List.mem_cons] at hk
    push_neg at hk
    rw [alFind, if_neg (fun e => hk.1 e.symm)]
    exact ih k hk.2

theorem alFind_filter {α : Type} (p : String × α → Bool) :
    ∀ (l : List (String × α)), (l.map Prod.fst).Nodup →
      ∀ (k : String) (c : α), alFind l k = some c →
        alFind (l.filter p) k = (if p (k, c) = true then some c else none) := by
  intro l
  induction l with
  | nil => intro _ k c h; exact Option.noConfusion h
  | cons kv rest ih =>
    obtain ⟨k0, v0⟩ := kv
    intro hnd k c h
    rw [List.map_cons, List.nodup_cons] at hnd
    obtain ⟨hk0, hrest⟩ := hnd
    rw [alFind] at h
    by_cases hk : k0 = k
    · rw [if_pos hk] at h
      cases h
      subst hk
      by_cases hp : p (k0, v0) = true
      · rw [List.filter_cons_of_pos hp, alFind, if_pos rfl, if_pos hp]
      · rw [List.filter_cons_of_neg (by simpa using hp), if_neg hp]
        refine alFind_eq_none_of_not_mem_keys _ k0 ?_
        intro hm
        rcases List.mem_map.mp hm with ⟨kv', hkv', hfst⟩
        exact hk0 (by
          rw [← hfst]
          exact List.mem_map.mpr ⟨kv', (List.mem_filter.mp hkv').1, rfl⟩)
    · rw [if_neg hk] at h
      by_cases hp : p (k0, v0) = true
      · rw [List.filter_cons_of_pos hp, alFind, if_neg hk]
        exact ih hrest k c h
      · rw [List.filter_cons_of_neg (by simpa using hp)]
        exact ih hrest k c h

/-- **C9 (confirmed).** The idle sweep is scheduled on a fixed 60-second
interval with a 5-minute idle threshold; at a sweep tick every pooled
handle whose last-used timestamp is older than the threshold is removed,
and every handle used within the threshold survives unchanged. -/
theorem idle_sweep_constants_and_eviction :
    CLEANUP_INTERVAL_MS = 60000 ∧ IDLE_TIMEOUT = 300000 ∧
    (∀ (now : Int) (st : PoolState) (k : String) (c : DatabricksConnection),
       (st.connections.map Prod.fst).Nodup →
       alFind st.connections k = some c →
       (now - c.lastUsed > IDLE_TIMEOUT →
          alFind (cleanupIdleConnections now st).connections k = none) ∧
       (now - c.lastUsed ≤ IDLE_TIMEOUT →
          alFind (cleanupIdleConnections now st).connections k = some c)) := by
  refine ⟨rfl, rfl, ?_⟩
  intro now st k c hnd h
  have hf := alFind_filter (fun kv => decide (now - kv.2.lastUsed ≤ IDLE_TIMEOUT))
    st.connections hnd k c h
  constructor
  · intro hgt
    have hp : ¬ ((fun kv : String × DatabricksConnection =>
        decide (now - kv.2.lastUsed ≤ IDLE_TIMEOUT)) (k, c) = true) := by
      simp only [decide_eq_true_eq]
      omega
    rw [cleanupIdleConnections]
    rw [hf, if_neg hp]
  · intro hle
    have hp : (fun kv : String × DatabricksConnection =>
        decide (now - kv.2.lastUsed ≤ IDLE_TIMEOUT)) (k, c) = true := by
      simp only [decide_eq_true_eq]
      omega
    rw [cleanupIdleConnections]
    rw [hf, if_pos hp]

/-- A pool holding a stale handle (`k1`, untouched for 400 s) and a fresh
one (`k2`, used 250 s ago). -/
def c9pool : PoolState :=
  { connections := [("k1", ⟨1, true, 0, cfgA⟩), ("k2", ⟨2, true, 150000, cfgA⟩)],
    inflight := [] }

/-- Witness for `idle_sweep_constants_and_eviction` at a concrete sweep
tick. -/
theorem idle_sweep_constants_and_eviction_witness :
    alFind (cleanupIdleConnections 400000 c9pool).connections "k1" = none ∧
    alFind (cleanupIdleConnections 400000 c9pool).connections "k2" =
      some ⟨2, true, 150000, cfgA⟩ := by
  have h := idle_sweep_constants_and_eviction.2.2 400000 c9pool
  exact ⟨(h "k1" ⟨1, true, 0, cfgA⟩ (by decide) rfl).1 (by decide),
         (h "k2" ⟨2, true, 150000, cfgA⟩ (by decide) rfl).2 (by decide)⟩

/-! ## Claim C10 -/

/-- **C10 (confirmed, implicit).** The pool key is built only from host,
port (443 when falsy), user and database — the password/token is not part
of it — and a caller that hits a live cached handle gets that handle
back, whose stored configuration (hence token) is the one the handle was
created with, regardless of the caller's own token. -/
theorem pool_key_ignores_password :
    (∀ c1 c2 : DbCfg, c1.host = c2.host → c1.port = c2.port → c1.user = c2.user →
        c1.database = c2.database → getConnectionKey c1 = getConnectionKey c2) ∧
    (∀ (cfg : DbCfg) (drv : Bool) (oc : ConnectOutcome) (now : Int) (st : PoolState)
        (h : DatabricksConnection),
        cfg.databaseType = "databricks" →
        alFind st.connections (getConnectionKey cfg) = some h →
        h.isConnected = true →
        (getConnection cfg drv oc now st).1 = .ok { h with lastUsed := now } ∧
        ({ h with lastUsed := now } : DatabricksConnection).config.password =
          h.config.password) := by
  constructor
  · intro c1 c2 h1 h2 h3 h4
    rw [getConnectionKey, getConnectionKey, h1, h2, h3, h4]
  · intro cfg drv oc now st h hdb hfind hconn
    constructor
    · simp [getConnection, hdb, hfind, hconn]
    · rfl

/-- A pool caching a live handle created from `cfgA` (token `tokenA`). -/
def c10pool : PoolState :=
  { connections := [(getConnectionKey cfgA, ⟨5, true, 50, cfgA⟩)], inflight := [] }

/-- Witness for `pool_key_ignores_password`: a caller presenting
`tokenB` for the same host/port/user/database receives the cached handle
whose configuration still carries `tokenA`. -/
theorem pool_key_ignores_password_witness :
    getConnectionKey cfgA = getConnectionKey cfgB ∧
    (getConnection cfgB true (ConnectOutcome.success 9 0) 60 c10pool).1 =
      .ok ⟨5, true, 60, cfgA⟩ ∧
    cfgA.password ≠ cfgB.password := by
  have h1 := pool_key_ignores_password.1 cfgA cfgB rfl rfl rfl rfl
  have h2 := (pool_key_ignores_password.2 cfgB true (.success 9 0) 60 c10pool
    ⟨5, true, 50, cfgA⟩ rfl (by rw [← h1]; rfl) rfl).1
  exact ⟨h1, h2, by decide⟩

end CelpMcp
